import Mathlib

/-!
Formal model of the task time-analysis dashboard pipeline
(src/task_dashboard.py).

The script loads uploaded CSV files into one pandas DataFrame, derives
`date` and `hour` from the `started_at` timestamp, filters by selected
users and a date range, and renders aggregations.  We embed the rows,
the filter mask, the groupby aggregations, the IQR outlier detection and
the hour-by-weekday pivot table as pure Lean functions over lists.

Modelling conventions:
- a pandas cell that can be NaN/NaT is an `Option` value (`none` = null);
- float durations are rationals (all arithmetic in the script is exact
  on rational inputs);
- calendar dates are day numbers since 1970-01-01 (a Thursday), so the
  weekday name is determined by the day number modulo 7;
- pandas semantics used by the script and embedded here: `sum`/`mean`/
  `count`/`quantile` skip NaN; `groupby` drops rows whose key is NaN;
  `isin` against a NaN-free list never matches a NaN cell; comparisons
  with NaT are false.
-/

/-- One row of the combined DataFrame after `load_all_data`: the CSV
columns used by the dashboard plus the derived `date` and `hour`
(both null when `started_at` is unparseable, per `errors="coerce"`). -/
structure TaskRec where
  user_first_name : Option String
  user_last_name : Option String
  user_locale : Option String
  task : Option String
  minutes : Option ℚ
  date : Option ℕ
  hour : Option ℕ
  deriving DecidableEq

/-- Insert a duration value into an ascending-sorted list. -/
def insertAsc (x : ℚ) : List ℚ → List ℚ
  | [] => [x]
  | y :: ys => if x ≤ y then x :: y :: ys else y :: insertAsc x ys

/-- Ascending sort of the duration values, as numpy sorts them before
quantile interpolation. -/
def sortQ : List ℚ → List ℚ
  | [] => []
  | x :: xs => insertAsc x (sortQ xs)

/-- pandas `Series.quantile(p)` with the default linear interpolation,
for a probability given as the exact fraction `p = pn / pd` (the script
uses `p = 0.25` and `p = 0.75`, i.e. `1/4` and `3/4`): the quantile sits
at position `p * (n - 1)` of the sorted values and is interpolated
linearly between the two adjacent values.  An empty series gives NaN,
modelled as `none`. -/
def quantileLinear (xs : List ℚ) (pn pd : ℕ) : Option ℚ :=
  match sortQ xs with
  | [] => none
  | y :: ys =>
    let s := y :: ys
    let n : ℕ := s.length
    let i : ℕ := pn * (n - 1) / pd
    let lo := s.getD i y
    let hi := s.getD (i + 1) lo
    some (lo + (((pn * (n - 1) : ℕ) : ℚ) / (pd : ℚ) - (i : ℚ)) * (hi - lo))

/-- The non-null `minutes` values of a view (pandas skips NaN in
`sum`, `mean`, `count` and `quantile`). -/
def durationsOf (df : List TaskRec) : List ℚ := df.filterMap TaskRec.minutes

/-- Tab 3 outlier thresholds: `Q1 = quantile(0.25)`, `Q3 =
quantile(0.75)`, `IQR = Q3 - Q1`, bounds `Q1 - 1.5 IQR` and
`Q3 + 1.5 IQR`.  `none` when the view has no non-null duration
(pandas returns NaN bounds). -/
def outlier_bounds (df : List TaskRec) : Option (ℚ × ℚ) :=
  match quantileLinear (durationsOf df) 1 4, quantileLinear (durationsOf df) 3 4 with
  | some q1, some q3 => some (q1 - 3/2 * (q3 - q1), q3 + 3/2 * (q3 - q1))
  | _, _ => none

/-- Tab 3 outlier rows: `filtered_df[(minutes < lower) | (minutes > upper)]`.
A NaN duration compares false on both sides, so a null-duration row is
never selected; NaN bounds (no durations) select nothing. -/
def outliers (df : List TaskRec) : List TaskRec :=
  match outlier_bounds df with
  | none => []
  | some (lo, hi) =>
    df.filter fun r =>
      match r.minutes with
      | none => false
      | some m => decide (m < lo) || decide (hi < m)

/-- Four rows with durations 1, 2, 3, 100 on consecutive days, the
input of the quartile example in the spec. -/
def df4 : List TaskRec :=
  [⟨some "A", some "L", some "en", some "t1", some 1, some 0, some 9⟩,
   ⟨some "A", some "L", some "en", some "t2", some 2, some 1, some 9⟩,
   ⟨some "A", some "L", some "en", some "t3", some 3, some 2, some 9⟩,
   ⟨some "A", some "L", some "en", some "t4", some 100, some 3, some 9⟩]

/-- The row of `df4` carrying the duration 100. -/
def rec100 : TaskRec :=
  ⟨some "A", some "L", some "en", some "t4", some 100, some 3, some 9⟩

/-- Membership of a possibly-null user cell in the selected-user list,
as `df["user_first_name"].isin(selected_users)` evaluates it: the
selectable list is built from non-null names, so a NaN cell never
matches. -/
def memSel (sel : List String) : Option String → Bool
  | some u => decide (u ∈ sel)
  | none => false

/-- The date-range side of the filter mask:
`(df["date"] >= selected_dates[0]) & (df["date"] <= selected_dates[1])`.
Comparisons against a NaT date are false. -/
def inRange (d0 d1 : ℕ) : Option ℕ → Bool
  | some d => decide (d0 ≤ d) && decide (d ≤ d1)
  | none => false

/-- The selectable users: `df["user_first_name"].dropna().unique()`. -/
def usersOf (df : List TaskRec) : List String :=
  (df.filterMap TaskRec.user_first_name).dedup

/-- The filter engine: `filtered_df = df[mask]` where the mask is the
conjunction of user membership and the inclusive date range. -/
def filterView (df : List TaskRec) (sel : List String) (d0 d1 : ℕ) : List TaskRec :=
  df.filter fun r => memSel sel r.user_first_name && inRange d0 d1 r.date

/-- Tab 2 per-user totals,
`filtered_df.groupby("user_first_name")["minutes"].sum()`: one row per
distinct non-null user (groupby drops NaN keys), summing the non-null
minutes of that user. -/
def time_chart (v : List TaskRec) : List (String × ℚ) :=
  (usersOf v).map fun u =>
    (u, (durationsOf (v.filter fun r => r.user_first_name = some u)).sum)

/-- Tab 1 `total_minutes = filtered_df["minutes"].sum()` (NaN skipped). -/
def total_minutes (v : List TaskRec) : ℚ := (durationsOf v).sum

/-- Tab 1 `total_tasks = filtered_df.shape[0]`: the raw row count,
null-duration rows included. -/
def total_tasks (v : List TaskRec) : ℕ := v.length

/-- pandas `mean` over the non-null minutes: NaN (`none`) on an empty
series.  The dashboard also rounds the mean to two decimals for
display; no claim depends on that rounding, so it is not modelled. -/
def meanQ (xs : List ℚ) : Option ℚ :=
  if xs.length = 0 then none else some (xs.sum / (xs.length : ℚ))

/-- The grouping key of tab 1,
`groupby(["user_first_name", "user_last_name", "user_locale"])`:
pandas drops a row from the groupby when any key cell is NaN. -/
def key3 (r : TaskRec) : Option (String × String × String) :=
  match r.user_first_name, r.user_last_name, r.user_locale with
  | some a, some b, some c => some (a, b, c)
  | _, _, _ => none

/-- The distinct grouping keys occurring in a view. -/
def groupKeys (df : List TaskRec) : List (String × String × String) :=
  (df.filterMap key3).dedup

/-- The rows of one group. -/
def groupRows (df : List TaskRec) (k : String × String × String) : List TaskRec :=
  df.filter fun r => key3 r = some k

/-- One row of the tab 1 user summary table. -/
structure SummaryRow where
  firstName : String
  lastName : String
  locale : String
  totalMinutes : ℚ
  taskCount : ℕ
  avgMinutes : Option ℚ
  deriving DecidableEq

/-- The aggregation of one group in tab 1:
`Total_Minutes = ("minutes", "sum")`, `Task_Count = ("minutes", "count")`,
`Avg_Minutes_Per_Task = ("minutes", "mean")` — all three metrics read the
`minutes` column, and pandas `sum`, `count` and `mean` all skip NaN. -/
def summaryRowFor (df : List TaskRec) (k : String × String × String) : SummaryRow :=
  let ds := durationsOf (groupRows df k)
  ⟨k.1, k.2.1, k.2.2, ds.sum, ds.length, meanQ ds⟩

/-- Insert a summary row into a list sorted by `totalMinutes` descending
(`sort_values(by="Total_Minutes", ascending=False)`). -/
def insertDesc (x : SummaryRow) : List SummaryRow → List SummaryRow
  | [] => [x]
  | y :: ys => if y.totalMinutes < x.totalMinutes then x :: y :: ys
               else y :: insertDesc x ys

/-- Sort summary rows by total minutes descending. -/
def sortDesc : List SummaryRow → List SummaryRow
  | [] => []
  | x :: xs => insertDesc x (sortDesc xs)

/-- The tab 1 `user_summary` table: one aggregated row per distinct
(first name, last name, locale) key, sorted by total minutes
descending. -/
def user_summary (df : List TaskRec) : List SummaryRow :=
  sortDesc ((groupKeys df).map (summaryRowFor df))

/-- The tab 1 AI-insight lookup `user_summary.iloc[0]`: `none` models
the IndexError pandas raises when the summary table is empty. -/
def aiInsightTop (df : List TaskRec) : Option SummaryRow :=
  (user_summary df).head?

/-- English weekday names by day number modulo 7; day 0 is
1970-01-01, a Thursday (`pd.Timestamp.day_name()`). -/
def dayName (d : ℕ) : String :=
  ["Thursday", "Friday", "Saturday", "Sunday", "Monday", "Tuesday", "Wednesday"].getD (d % 7) ""

/-- Tab 10 `ordered_days`. -/
def ordered_days : List String :=
  ["Monday", "Tuesday", "Wednesday", "Thursday", "Friday", "Saturday", "Sunday"]

/-- The distinct (hour, weekday-name) keys of
`groupby(["hour", "day"])`: rows whose hour or date is null are dropped
(both derive from `started_at`, and NaN keys leave the groupby). -/
def hourDayPairs (df : List TaskRec) : List (ℕ × String) :=
  (df.filterMap fun r =>
    match r.hour, r.date with
    | some h, some d => some (h, dayName d)
    | _, _ => none).dedup

/-- The sum of non-null minutes over the rows at a given hour and
weekday name. -/
def cellSum (df : List TaskRec) (h : ℕ) (c : String) : ℚ :=
  (durationsOf (df.filter fun r =>
    r.hour = some h ∧ r.date.map dayName = some c)).sum

/-- The groupby result feeding the pivot: each present (hour, day)
key with its summed minutes. -/
def groupPairs (df : List TaskRec) : List ((ℕ × String) × ℚ) :=
  (hourDayPairs df).map fun p => (p, cellSum df p.1 p.2)

/-- Lookup of a (hour, day) key in the groupby result. -/
def lookupPair : List ((ℕ × String) × ℚ) → ℕ × String → Option ℚ
  | [], _ => none
  | e :: es, p => if e.1 = p then some e.2 else lookupPair es p

/-- The weekday names that occur in the view: the columns of the
pivot before `reindex(columns=ordered_days)`. -/
def daysPresent (df : List TaskRec) : List String :=
  ((hourDayPairs df).map Prod.snd).dedup

/-- Insert an hour into an ascending-sorted list of hours. -/
def insertHour (x : ℕ) : List ℕ → List ℕ
  | [] => [x]
  | y :: ys => if x ≤ y then x :: y :: ys else y :: insertHour x ys

/-- Ascending sort of a list of hours. -/
def sortHours : List ℕ → List ℕ
  | [] => []
  | x :: xs => insertHour x (sortHours xs)

/-- The hours that occur in the view, ascending: the index of the
pivot (`pivot` sorts the index; it is never reindexed to 0..23). -/
def hoursPresent (df : List TaskRec) : List ℕ :=
  sortHours ((hourDayPairs df).map Prod.fst).dedup

/-- One cell of the tab 10 pivot after
`pivot(...).fillna(0).reindex(columns=ordered_days)`: `fillna(0)` runs
while the columns are only the days present in the view, so a cell of a
present day falls back to 0 when its (hour, day) key has no rows, while
a day column absent from the view is created afterwards by `reindex`
and holds NaN (`none`). -/
def pivotCell (df : List TaskRec) (h : ℕ) (c : String) : Option ℚ :=
  if c ∈ daysPresent df then some ((lookupPair (groupPairs df) (h, c)).getD 0) else none

/-- The tab 10 `pivot_table`: one row per hour present in the view,
with the seven `ordered_days` columns. -/
def pivot_table (df : List TaskRec) : List (ℕ × List (Option ℚ)) :=
  (hoursPresent df).map fun h => (h, ordered_days.map fun c => pivotCell df h c)

/-- One uploaded CSV source as `load_all_data` sees it: its column
names and its rows (already in combined-row shape; the upload widget
and `pd.read_csv` are external I/O). -/
structure RawFile where
  columns : List String
  rows : List TaskRec
  deriving DecidableEq

/-- Reading one file inside the `load_all_data` loop:
`df["started_at"] = pd.to_datetime(df["started_at"], ...)` raises a
KeyError naming the missing column when the file has no `started_at`
column; otherwise the rows are kept. -/
def loadFile (f : RawFile) : Except String (List TaskRec) :=
  if "started_at" ∈ f.columns then .ok f.rows else .error "started_at"

/-- `load_all_data`: the loop over the uploaded files followed by
`pd.concat`.  An exception from any file propagates out of the whole
function, so one bad file aborts the entire load. -/
def load_all_data : List RawFile → Except String (List TaskRec)
  | [] => .ok []
  | f :: fs => do
      let d ← loadFile f
      let rest ← load_all_data fs
      return d ++ rest

/-- One record at hour 9 on day 4 (1970-01-05, a Monday) with duration
15: the heatmap example of the spec. -/
def dfC2 : List TaskRec :=
  [⟨some "A", some "L", some "en", some "t", some 15, some 4, some 9⟩]

/-- One fully-keyed record whose duration is null. -/
def dfC3 : List TaskRec :=
  [⟨some "A", some "B", some "C", some "t", none, none, none⟩]

/-- A record with every field present. -/
def recFull : TaskRec := ⟨some "A", some "L", some "en", some "t", some 5, some 0, some 9⟩

/-- A record whose user name is null. -/
def recNullUser : TaskRec := ⟨none, some "L", some "en", some "t", some 5, some 0, some 9⟩

/-- A record whose date is null (unparseable `started_at`). -/
def recNullDate : TaskRec := ⟨some "A", some "L", some "en", some "t", some 5, none, some 9⟩

/-- A dataset holding a complete record, a null-user record and a
null-date record; its selectable users are `["A"]` and its date range
is the single day 0. -/
def dfC6 : List TaskRec := [recFull, recNullUser, recNullDate]

/-- An uploaded source with a `started_at` column. -/
def goodFile : RawFile := ⟨["started_at", "user_first_name", "minutes"], [recFull]⟩

/-- An uploaded source without a `started_at` column. -/
def badFile : RawFile := ⟨["user_first_name", "minutes"], [recNullDate]⟩

/-- Claim C1 counterexample: on durations `[1, 2, 3, 100]` the
linear-interpolation third quartile the script computes is `109/4 =
27.25`, not 52, and the record with duration 100 IS flagged as an
outlier, so the claimed bounds and the claimed empty outlier set are
both wrong. -/
theorem C1_quartile_counterexample :
    quantileLinear (durationsOf df4) 3 4 = some (109/4) ∧
    (109 : ℚ)/4 ≠ 52 ∧
    (outliers df4).map TaskRec.minutes = [some 100] := by
  refine ⟨?_, by norm_num, ?_⟩
  · norm_num [durationsOf, df4, quantileLinear, sortQ, insertAsc]
  · norm_num [outliers, outlier_bounds, durationsOf, df4, quantileLinear, sortQ, insertAsc]

/-- Claim C1 amended: for the input durations `[1, 2, 3, 100]` the
OutlierDetector computes Q1 = 1.75, Q3 = 27.25, IQR = 25.5, lower bound
-36.5, upper bound 65.5, and flags exactly the record with duration 100
as an outlier. -/
theorem C1_quartile_amended :
    quantileLinear (durationsOf df4) 1 4 = some (7/4) ∧
    quantileLinear (durationsOf df4) 3 4 = some (109/4) ∧
    (109 : ℚ)/4 - 7/4 = 51/2 ∧
    outlier_bounds df4 = some (-(73/2), 131/2) ∧
    (outliers df4).map TaskRec.minutes = [some 100] := by
  refine ⟨?_, ?_, by norm_num, ?_, ?_⟩ <;>
    norm_num [outliers, outlier_bounds, durationsOf, df4, quantileLinear, sortQ, insertAsc]

/-- Claim C8: when the quartiles of a view's non-null durations are
`q1` and `q3`, the detector's bounds are `q1 - 1.5 (q3 - q1)` and
`q3 + 1.5 (q3 - q1)`, and a record with a non-null duration `m` is
flagged exactly when `m` lies strictly outside those bounds. -/
theorem C8_outlier_rule (df : List TaskRec) (q1 q3 : ℚ) (r : TaskRec) (m : ℚ)
    (h1 : quantileLinear (durationsOf df) 1 4 = some q1)
    (h3 : quantileLinear (durationsOf df) 3 4 = some q3)
    (hm : r.minutes = some m) :
    outlier_bounds df = some (q1 - 3/2 * (q3 - q1), q3 + 3/2 * (q3 - q1)) ∧
    (r ∈ outliers df ↔
      r ∈ df ∧ (m < q1 - 3/2 * (q3 - q1) ∨ q3 + 3/2 * (q3 - q1) < m)) := by
  have hb : outlier_bounds df = some (q1 - 3/2 * (q3 - q1), q3 + 3/2 * (q3 - q1)) := by
    simp [outlier_bounds, h1, h3]
  refine ⟨hb, ?_⟩
  simp [outliers, hb, List.mem_filter, hm]

/-- Witness for C8 at the concrete dataset `df4` and its record of
duration 100. -/
theorem C8_outlier_rule_witness :
    outlier_bounds df4 = some (7/4 - 3/2 * (109/4 - 7/4), 109/4 + 3/2 * (109/4 - 7/4)) ∧
    (rec100 ∈ outliers df4 ↔
      rec100 ∈ df4 ∧
        ((100 : ℚ) < 7/4 - 3/2 * (109/4 - 7/4) ∨ (109 : ℚ)/4 + 3/2 * (109/4 - 7/4) < 100)) :=
  C8_outlier_rule df4 (7/4) (109/4) rec100 100
    (by norm_num [durationsOf, df4, quantileLinear, sortQ, insertAsc])
    (by norm_num [durationsOf, df4, quantileLinear, sortQ, insertAsc])
    rfl

/-- Claim C4 (code bug): on an empty filtered view the tab 1 AI-insight
computation does not return a null-safe result — `user_summary.iloc[0]`
raises an IndexError, modelled here by `aiInsightTop` returning `none`
(no row exists to return).  The empty view arises from an ordinary
filter interaction (deselecting every user). -/
theorem C4_empty_insight_raises :
    filterView df4 [] 0 0 = [] ∧ aiInsightTop (filterView df4 [] 0 0) = none := by
  have h : filterView df4 [] 0 0 = [] := by decide
  exact ⟨h, by rw [h]; rfl⟩

/-- Claim C5 counterexample: ingesting a valid source together with a
source lacking the required `started_at` column makes the whole
`load_all_data` call fail; the valid source is not ingested, so a
multi-source upload cannot partially succeed. -/
theorem C5_ingest_counterexample :
    load_all_data [goodFile, badFile] = .error "started_at" := rfl

/-- Claim C5 amended: when any uploaded source lacks the required
`started_at` column, the whole multi-source ingestion fails with that
schema error and no source is ingested — ingestion is all-or-nothing,
never partial. -/
theorem C5_ingest_amended (files : List RawFile) (f : RawFile)
    (hf : f ∈ files) (hbad : "started_at" ∉ f.columns) :
    load_all_data files = .error "started_at" := by
  induction files with
  | nil => cases hf
  | cons g gs ih =>
    rcases List.mem_cons.mp hf with rfl | hmem
    · simp only [load_all_data, loadFile, if_neg hbad]
      rfl
    · by_cases hgc : "started_at" ∈ g.columns
      · simp only [load_all_data, loadFile, if_pos hgc, ih hmem]
        rfl
      · simp only [load_all_data, loadFile, if_neg hgc]
        rfl

/-- Witness for C5 at a single bad source. -/
theorem C5_ingest_amended_witness :
    load_all_data [badFile] = .error "started_at" :=
  C5_ingest_amended [badFile] badFile (by simp) (by decide)

/-- Claim C7: filtering with an explicitly empty selected-user list
returns zero records, for every dataset and every date range. -/
theorem C7_empty_user_selection (df : List TaskRec) (d0 d1 : ℕ) :
    filterView df [] d0 d1 = [] := by
  apply List.filter_eq_nil_iff.mpr
  intro r hr
  cases h : r.user_first_name <;> simp [memSel, h]

/-- Claim C10: a record whose user name is null is excluded from every
filtered view — the selected-user list holds plain strings (it is built
from the non-null names), and a null cell never passes the membership
test of the mask. -/
theorem C10_null_user_excluded (df : List TaskRec) (sel : List String) (d0 d1 : ℕ)
    (r : TaskRec) (hr : r.user_first_name = none) :
    r ∉ filterView df sel d0 d1 := by
  simp [filterView, List.mem_filter, memSel, hr]

/-- Witness for C10: the null-user record of `dfC6` is excluded under
the default all-inclusive selection built from `dfC6`. -/
theorem C10_null_user_excluded_witness :
    recNullUser ∉ filterView dfC6 (usersOf dfC6) 0 0 :=
  C10_null_user_excluded dfC6 (usersOf dfC6) 0 0 recNullUser rfl

/-- The number of non-null minutes equals the number of rows whose
minutes cell is present. -/
theorem length_durationsOf (l : List TaskRec) :
    (l.filterMap TaskRec.minutes).length = (l.filter fun r => r.minutes.isSome).length := by
  induction l with
  | nil => rfl
  | cons r rs ih => cases h : r.minutes <;> simp [List.filterMap_cons, List.filter_cons, h, ih]

/-- Claim C3 counterexample: a user with one logged record whose
duration is null gets `Task_Count = 0` in the user summary (pandas
`count` over the `minutes` column skips NaN), although the user has one
record in the view. -/
theorem C3_count_counterexample :
    (user_summary dfC3).map SummaryRow.taskCount = [0] ∧
    (groupRows dfC3 ("A", "B", "C")).length = 1 := by decide

/-- Claim C3 amended: the per-user task count equals the number of that
user's records with a NON-null duration (null-duration records are not
counted), while the total minutes likewise sums only non-null
durations; the separate `total_tasks` metric counts every record of the
view, null durations included. -/
theorem C3_count_amended (df : List TaskRec) (k : String × String × String) :
    (summaryRowFor df k).taskCount
      = ((groupRows df k).filter fun r => r.minutes.isSome).length ∧
    (summaryRowFor df k).totalMinutes = (durationsOf (groupRows df k)).sum ∧
    total_tasks df = df.length :=
  ⟨length_durationsOf (groupRows df k), rfl, rfl⟩

/-- Claim C6 counterexample: filtering `dfC6` with every selectable
user and the full date range of the dataset (its dates span exactly day
0) drops the null-user record and the null-date record, so the view is
not the unfiltered dataset. -/
theorem C6_allinclusive_counterexample :
    usersOf dfC6 = ["A"] ∧
    filterView dfC6 (usersOf dfC6) 0 0 = [recFull] ∧
    filterView dfC6 (usersOf dfC6) 0 0 ≠ dfC6 := by decide

/-- Claim C6 amended: filtering with every selectable user and a date
range covering every date present returns exactly the records that have
a non-null user name and a non-null date, in the original order;
null-user and null-date records are excluded even under the
all-inclusive criteria. -/
theorem C6_allinclusive_amended (df : List TaskRec) (d0 d1 : ℕ)
    (hd : ∀ r ∈ df, ∀ d, r.date = some d → d0 ≤ d ∧ d ≤ d1) :
    filterView df (usersOf df) d0 d1
      = df.filter fun r => r.user_first_name.isSome && r.date.isSome := by
  unfold filterView
  apply List.filter_congr
  intro r hr
  cases hu : r.user_first_name with
  | none => simp [memSel, hu]
  | some u =>
    cases hdt : r.date with
    | none => simp [memSel, inRange, hu, hdt]
    | some d =>
      have hmem : u ∈ usersOf df :=
        List.mem_dedup.mpr (List.mem_filterMap.mpr ⟨r, hr, hu⟩)
      have hdd := hd r hr d hdt
      simp [memSel, inRange, hu, hdt, hmem, hdd.1, hdd.2]

/-- Witness for C6 at the concrete dataset `dfC6`, whose dates all lie
in the range `[0, 0]`. -/
theorem C6_allinclusive_amended_witness :
    filterView dfC6 (usersOf dfC6) 0 0
      = dfC6.filter fun r => r.user_first_name.isSome && r.date.isSome :=
  C6_allinclusive_amended dfC6 0 0 (by
    intro r hr d hd
    simp only [dfC6, recFull, recNullUser, recNullDate, List.mem_cons,
      List.not_mem_nil, or_false] at hr
    rcases hr with rfl | rfl | rfl <;> simp_all)

/-- Looking a key up in an association list built by pairing each key
of `l` with `f` of that key finds `f p` exactly when `p` occurs in
`l`. -/
theorem lookupPair_map (l : List (ℕ × String)) (f : ℕ × String → ℚ) (p : ℕ × String) :
    lookupPair (l.map fun q => (q, f q)) p = if p ∈ l then some (f p) else none := by
  induction l with
  | nil => rfl
  | cons q l ih =>
    simp only [List.map_cons, lookupPair]
    by_cases hq : q = p
    · subst hq; simp
    · have hpq : (p = q) = False := eq_false fun h => hq h.symm
      simp [hq, ih, List.mem_cons, hpq]

/-- A (hour, day) key that the groupby did not produce has no matching
rows, so the direct sum over its cell is zero. -/
theorem cellSum_zero_of_not_mem (df : List TaskRec) (h : ℕ) (c : String)
    (hnp : (h, c) ∉ hourDayPairs df) : cellSum df h c = 0 := by
  have hnil : (df.filter fun r => r.hour = some h ∧ r.date.map dayName = some c) = [] := by
    apply List.filter_eq_nil_iff.mpr
    intro r hr hpred
    apply hnp
    simp only [decide_eq_true_eq] at hpred
    obtain ⟨hh, hdc⟩ := hpred
    obtain ⟨d, hd, hdn⟩ := Option.map_eq_some'.mp hdc
    apply List.mem_dedup.mpr
    apply List.mem_filterMap.mpr
    exact ⟨r, hr, by simp [hh, hd, hdn]⟩
  unfold cellSum
  rw [hnil]
  rfl

/-- Claim C2 counterexample: for the single record at hour 9 on a
Monday with duration 15, the pivot table has one row (hour 9), not 24,
and the cells of the six weekday columns absent from the data are null
(`reindex` adds them after `fillna(0)` has run), not zero. -/
theorem C2_heatmap_counterexample :
    pivot_table dfC2 = [(9, [some 15, none, none, none, none, none, none])] ∧
    (pivot_table dfC2).length ≠ 24 := by
  constructor
  · simp [pivot_table, pivotCell, hoursPresent, sortHours, insertHour,
      hourDayPairs, dfC2, daysPresent, groupPairs, lookupPair, cellSum,
      durationsOf, dayName, ordered_days]
  · simp [pivot_table, hoursPresent, sortHours, insertHour, hourDayPairs, dfC2,
      dayName]

/-- Claim C2 amended: the pivot rows are exactly the hours occurring in
the view (not all 24); the columns are the seven weekday names Monday
through Sunday; a cell whose weekday occurs somewhere in the view holds
the sum of the matching non-null minutes (zero when no record matches
the pair), while a weekday column with no records at all holds null in
every row rather than zero. -/
theorem C2_heatmap_amended (df : List TaskRec) (h : ℕ) (c : String) :
    (pivot_table df).map Prod.fst = hoursPresent df ∧
    (c ∈ daysPresent df → pivotCell df h c = some (cellSum df h c)) ∧
    (c ∉ daysPresent df → pivotCell df h c = none) := by
  refine ⟨by simp [pivot_table, Function.comp_def], ?_, ?_⟩
  · intro hc
    by_cases hp : (h, c) ∈ hourDayPairs df
    · simp [pivotCell, hc, groupPairs, lookupPair_map, hp]
    · simp [pivotCell, hc, groupPairs, lookupPair_map, hp,
        cellSum_zero_of_not_mem df h c hp]
  · intro hc
    simp [pivotCell, hc]

/-- Witness for C2 at the concrete dataset `dfC2` and the present
weekday Monday. -/
theorem C2_heatmap_amended_witness :
    pivotCell dfC2 9 "Monday" = some (cellSum dfC2 9 "Monday") :=
  (C2_heatmap_amended dfC2 9 "Monday").2.1 (by decide)

/-- Splitting a view by a Boolean predicate splits the sum of its
non-null minutes. -/
theorem sum_split (v : List TaskRec) (q : TaskRec → Bool) :
    (durationsOf (v.filter q)).sum + (durationsOf (v.filter fun r => !q r)).sum
      = (durationsOf v).sum := by
  induction v with
  | nil => simp [durationsOf]
  | cons r rs ih =>
    cases hq : q r <;> cases hm : r.minutes <;>
      simp [durationsOf, List.filter_cons, List.filterMap_cons, hq, hm] at ih ⊢ <;>
      linarith

/-- Summing per-user totals over a duplicate-free user list that covers
every record of the view gives the total of the view. -/
theorem sum_over_users (us : List String) :
    ∀ v : List TaskRec, us.Nodup →
      (∀ r ∈ v, ∃ u ∈ us, r.user_first_name = some u) →
      (us.map fun u =>
          (durationsOf (v.filter fun r => r.user_first_name = some u)).sum).sum
        = (durationsOf v).sum := by
  induction us with
  | nil =>
    intro v _ hcov
    have hv : v = [] := by
      cases v with
      | nil => rfl
      | cons r rs =>
        rcases hcov r (List.mem_cons_self r rs) with ⟨u, hu, _⟩
        exact absurd hu (List.not_mem_nil u)
    subst hv
    simp [durationsOf]
  | cons u us ih =>
    intro v hnd hcov
    have hnd' : us.Nodup := (List.nodup_cons.mp hnd).2
    have hu_not : u ∉ us := (List.nodup_cons.mp hnd).1
    set w := v.filter (fun r => !(decide (r.user_first_name = some u))) with hw
    have hfilters : ∀ u' ∈ us,
        v.filter (fun r => r.user_first_name = some u')
          = w.filter fun r => r.user_first_name = some u' := by
      intro u' hu'
      rw [hw, List.filter_filter]
      apply List.filter_congr
      intro r _
      cases hru : r.user_first_name with
      | none => simp
      | some x =>
        by_cases hx : x = u'
        · subst hx
          have h2 : (x = u) = False := eq_false fun h => hu_not (h ▸ hu')
          simp [h2]
        · simp [hx]
    have hcovw : ∀ r ∈ w, ∃ u' ∈ us, r.user_first_name = some u' := by
      intro r hrw
      have hrv : r ∈ v := List.mem_of_mem_filter hrw
      have hbw : (!(decide (r.user_first_name = some u))) = true :=
        (List.mem_filter.mp hrw).2
      rcases hcov r hrv with ⟨x, hx, hxu⟩
      rcases List.mem_cons.mp hx with rfl | hxs
      · exfalso
        simp [hxu] at hbw
      · exact ⟨x, hxs, hxu⟩
    rw [List.map_cons, List.sum_cons]
    have hmapeq :
        (us.map fun u' =>
            (durationsOf (v.filter fun r => r.user_first_name = some u')).sum)
          = us.map fun u' =>
              (durationsOf (w.filter fun r => r.user_first_name = some u')).sum := by
      apply List.map_congr_left
      intro u' hu'
      rw [hfilters u' hu']
    rw [hmapeq, ih w hnd' hcovw, hw]
    exact sum_split v fun r => decide (r.user_first_name = some u)

/-- Claim C9: for every filtered view, the sum over all users of the
per-user totals of the tab 2 aggregation equals the sum of
`duration_minutes` over the whole view, null durations ignored on both
sides. -/
theorem C9_sum_consistency (df : List TaskRec) (sel : List String) (d0 d1 : ℕ) :
    ((time_chart (filterView df sel d0 d1)).map Prod.snd).sum
      = total_minutes (filterView df sel d0 d1) := by
  have hcov : ∀ r ∈ filterView df sel d0 d1,
      ∃ u ∈ usersOf (filterView df sel d0 d1), r.user_first_name = some u := by
    intro r hr
    have hr' : r ∈ df.filter
        (fun r => memSel sel r.user_first_name && inRange d0 d1 r.date) := hr
    have hmask := (List.mem_filter.mp hr').2
    cases hu : r.user_first_name with
    | none =>
      rw [hu] at hmask
      simp [memSel] at hmask
    | some u =>
      refine ⟨u, ?_, rfl⟩
      exact List.mem_dedup.mpr (List.mem_filterMap.mpr ⟨r, hr, hu⟩)
  have hmain := sum_over_users (usersOf (filterView df sel d0 d1))
      (filterView df sel d0 d1) (List.nodup_dedup _) hcov
  simpa [time_chart, total_minutes, List.map_map, Function.comp_def] using hmain
